import Mathlib

/-!
Verification of the traversal/fetch engine of
`backend/airweave/platform/sources/confluence.py`.

The Python source is shallowly embedded: JSON dictionaries become records
whose fields are exactly the keys the source reads, HTTP responses become a
`Response` record, the network becomes an explicit function argument
(`Fetcher`), raised exceptions become `Except` errors, and the lazily pulled
async generators become fueled loops returning the list of records emitted
before the terminal event (normal completion, propagated error, or fuel
exhaustion of the model).
-/

deriving instance DecidableEq for Except

namespace Confluence

/-! ## JSON and data model

`Item` models a JSON object appearing in a `results` array or as the body of
a detail response; its fields are the keys read by the source, each `.get`
access with no default becoming `Option`, and `[...]` / defaulted accesses
becoming plain values. -/

/-- Breadcrumb, from `airweave.platform.entities._base.Breadcrumb`:
`entity_id`, `name`, `type`. -/
structure Breadcrumb where
  entityId : String
  name : String
  type : String
deriving DecidableEq, Repr

/-- One JSON object of the upstream API. Field correspondence:
`id` = `obj["id"]` (empty when absent), `key` = `obj["key"]`,
`bodyValue` = `obj.get("body", {}).get("storage", {}).get("value")`,
`spaceNestedId` = `obj.get("space", {}).get("id")`,
`versionNumber` = `obj.get("version", {}).get("number")`,
`spaceId` = `obj.get("spaceId")`, `containerId` = `obj.get("container", {}).get("id")`,
the rest are the same-named `.get` keys. -/
structure Item where
  id : String := ""
  key : String := ""
  name : Option String := none
  title : Option String := none
  spaceId : Option String := none
  spaceNestedId : Option String := none
  bodyValue : Option String := none
  versionNumber : Option Nat := none
  status : Option String := none
  description : Option String := none
  homepageId : Option String := none
  type : Option String := none
  createdAt : Option String := none
  updatedAt : Option String := none
  createdBy : Option String := none
  containerId : Option String := none
deriving DecidableEq, Repr

/-- A JSON response body: the fields of an `Item` (for detail responses)
plus the envelope keys `results`, `_links.next` (`nextLink`) and `message`
(read with default `""` on error bodies). -/
structure Body extends Item where
  results : List Item := []
  nextLink : Option String := none
  message : String := ""
deriving DecidableEq, Repr

/-- An HTTP response as the source reads it: `status_code`, `text`,
`json()` (only meaningful when `text` is nonempty), and the
`x-failure-category` header (`none` when the header is absent). -/
structure Response where
  status : Nat
  text : String := ""
  json : Body := { }
  xFailureCategory : Option String := none
deriving DecidableEq, Repr

/-- Errors that `_get_with_auth` can propagate:
`permissionScope` is the `ValueError("OAuth scope error: ...")` of the
scope check, `httpStatusError` is `httpx.HTTPStatusError` (raised by
`raise_for_status` or re-raised from the refresh branch), `otherError`
stands for any other exception. -/
inductive FetchError where
  | permissionScope (msg : String)
  | httpStatusError (status : Nat)
  | otherError
deriving DecidableEq, Repr

/-! ## Entities (airweave.platform.entities.confluence) -/

/-- `ConfluenceSpaceEntity` as constructed at lines 248-259. -/
structure SpaceEntity where
  entityId : String
  breadcrumbs : List Breadcrumb
  spaceKey : String
  name : Option String
  spaceType : Option String
  description : Option String
  status : Option String
  homepageId : Option String
  createdAt : Option String
  updatedAt : Option String
deriving DecidableEq, Repr

/-- `ConfluencePageEntity` as constructed at lines 293-308. -/
structure PageEntity where
  entityId : String
  breadcrumbs : List Breadcrumb
  contentId : String
  title : Option String
  spaceId : Option String
  body : String
  version : Option Nat
  status : Option String
  createdAt : Option String
  updatedAt : Option String
  fileId : String
  name : String
  mimeType : String
  downloadUrl : String
deriving DecidableEq, Repr

/-- `ConfluenceBlogPostEntity` as constructed at lines 351-362. -/
structure BlogPostEntity where
  entityId : String
  breadcrumbs : List Breadcrumb
  contentId : String
  title : Option String
  spaceId : Option String
  body : Option String
  version : Option Nat
  status : Option String
  createdAt : Option String
  updatedAt : Option String
deriving DecidableEq, Repr

/-- `ConfluenceCommentEntity` as constructed at lines 384-394.
Note the source sets `page_id=comment["id"]`. -/
structure CommentEntity where
  entityId : String
  breadcrumbs : List Breadcrumb
  pageId : String
  parentContentId : Option String
  text : Option String
  createdBy : Option String
  createdAt : Option String
  updatedAt : Option String
  status : Option String
deriving DecidableEq, Repr

/-- The tagged union of records yielded by `generate_entities`. -/
inductive Entity where
  | space (e : SpaceEntity)
  | page (e : PageEntity)
  | blogPost (e : BlogPostEntity)
  | comment (e : CommentEntity)
deriving DecidableEq, Repr

/-- How a modelled generator run ends: normal completion, a propagated
exception, or exhaustion of the fuel that bounds the model of the
`while url:` loops. -/
inductive Terminal where
  | done
  | failed (e : FetchError)
  | outOfFuel
deriving DecidableEq, Repr

/-- The observable behaviour of a generator run: the records emitted, in
order, before the terminal event. -/
structure GenResult (α : Type) where
  emitted : List α
  terminal : Terminal
deriving DecidableEq, Repr

/-! ## AsyncIteratorWrapper (lines 40-76)

The wrapped synchronous iterator is modelled as an oracle
`sync : Nat → Option α` giving the outcome of its k-th `next` call
(`none` = `StopIteration`); `calls` counts the calls made so far and
`consumed` is the `_consumed` flag. -/

structure AsyncIteratorWrapper (α : Type) where
  sync : Nat → Option α
  calls : Nat := 0
  consumed : Bool := false

/-- `__anext__` (lines 60-76): returns `none` for `StopAsyncIteration`,
together with the successor state of the wrapper. -/
def anext {α : Type} (w : AsyncIteratorWrapper α) : Option α × AsyncIteratorWrapper α :=
  if w.consumed then (none, w)
  else
    match w.sync w.calls with
    | some a => (some a, { w with calls := w.calls + 1 })
    | none => (none, { w with calls := w.calls + 1, consumed := true })

/-- `AsyncIteratorWrapper(iter(l))`: the oracle of a list iterator, which
yields the elements in order and then raises `StopIteration` forever. -/
def wrapperOfList {α : Type} (l : List α) : AsyncIteratorWrapper α :=
  { sync := fun k => l.get? k }

/-- The wrapper state after `n` further `__anext__` calls. -/
def iterState {α : Type} (w : AsyncIteratorWrapper α) : Nat → AsyncIteratorWrapper α
  | 0 => w
  | n + 1 => (anext (iterState w n)).2

/-! ## `_get_with_auth` (lines 161-222)

httpx contract: `AsyncClient.get` returns a `Response` for every HTTP
status code; `httpx.HTTPStatusError` is raised only by
`Response.raise_for_status` (no event hooks are installed on the clients
built at lines 107 and 467). The embedding keeps the source `except
httpx.HTTPStatusError` branch by abstracting over how the transport
delivers an outcome (`GetOutcome`), and instantiates it with the httpx
behaviour (`GetOutcome.returns`) in `getWithAuth`. -/

/-- Decides whether `pat` occurs as a contiguous substring, modelling the
Python `in` operator on strings. -/
def charsHaveSub (pat : List Char) : List Char → Bool
  | [] => pat.isEmpty
  | c :: rest => pat.isPrefixOf (c :: rest) || charsHaveSub pat rest

/-- `error_message.lower()` as a character list. -/
def lowerChars (s : String) : List Char :=
  s.data.map Char.toLower

/-- Line 205-206: `error_body = response.json() if response.text else {}`;
`error_message = error_body.get("message", "")`. -/
def responseErrorMessage (r : Response) : String :=
  (if r.text = "" then ({ } : Body) else r.json).message

/-- Lines 208-212: `"scope" in error_message.lower() or
"x-failure-category" in response.headers and
"SCOPE" in response.headers.get("x-failure-category", "")`
(Python parses this as `A or (B and C)`). -/
def scopeIndicator (r : Response) : Bool :=
  charsHaveSub "scope".data (lowerChars (responseErrorMessage r)) ||
    (r.xFailureCategory.isSome &&
      charsHaveSub "SCOPE".data (r.xFailureCategory.getD "").data)

/-- How a single `client.get` call ends: a returned response, a raised
`httpx.HTTPStatusError` carrying a response, or any other exception. -/
inductive GetOutcome where
  | returns (r : Response)
  | raisesStatus (r : Response)
  | raisesOther
deriving Repr

/-- A run of `_get_with_auth`: its result, how many times
`refresh_on_unauthorized` was called, and how many GET requests were
issued. -/
structure FetchTrace where
  result : Except FetchError Body
  refreshCalls : Nat
  requestsMade : Nat
deriving DecidableEq, Repr

/-- Lines 198-222: the scope check and `raise_for_status` on a response
bound to `response`; `is_success` is 2xx. -/
def respond (r : Response) (refreshCalls requestsMade : Nat) : FetchTrace :=
  if 200 ≤ r.status ∧ r.status < 300 then
    ⟨Except.ok r.json, refreshCalls, requestsMade⟩
  else if r.status = 401 ∧ scopeIndicator r = true then
    ⟨Except.error (FetchError.permissionScope
        ("OAuth scope error: " ++ responseErrorMessage r ++ ".")),
      refreshCalls, requestsMade⟩
  else
    ⟨Except.error (FetchError.httpStatusError r.status), refreshCalls, requestsMade⟩

/-- Lines 179-222 of `_get_with_auth`, abstracted over the outcome of the
first `client.get` (line 180) and of the retried one (line 192):
an `HTTPStatusError` with status 401 while `_token_manager` is set triggers
one `refresh_on_unauthorized`; on success the request is reissued once, on
failure the original error is re-raised; any response that was returned
flows into `respond`. -/
def getWithAuthCore (hasTokenManager refreshOk : Bool)
    (first retried : GetOutcome) : FetchTrace :=
  match first with
  | GetOutcome.returns r => respond r 0 1
  | GetOutcome.raisesStatus r =>
      if r.status = 401 ∧ hasTokenManager = true then
        if refreshOk then
          match retried with
          | GetOutcome.returns r2 => respond r2 1 2
          | GetOutcome.raisesStatus r2 =>
              ⟨Except.error (FetchError.httpStatusError r2.status), 1, 2⟩
          | GetOutcome.raisesOther => ⟨Except.error FetchError.otherError, 1, 2⟩
        else ⟨Except.error (FetchError.httpStatusError r.status), 1, 1⟩
      else ⟨Except.error (FetchError.httpStatusError r.status), 0, 1⟩
  | GetOutcome.raisesOther => ⟨Except.error FetchError.otherError, 0, 1⟩

/-- `_get_with_auth` under the httpx transport contract: `client.get`
returns its response (it never raises `HTTPStatusError` itself), so both
get outcomes are `returns`. `first` is the response the server gives the
original request, `retried` the one it would give a retried request. -/
def getWithAuth (hasTokenManager refreshOk : Bool)
    (first retried : Response) : FetchTrace :=
  getWithAuthCore hasTokenManager refreshOk
    (GetOutcome.returns first) (GetOutcome.returns retried)

/-! ## `create` / `_extract_cloud_id` (lines 97-159) -/

/-- `_get_accessible_resources` (lines 97-117): the HTTP call either
produces a resource list or fails; every failure is caught and turned into
`[]`. -/
def getAccessibleResources (api : Except Unit (List Item)) : List Item :=
  match api with
  | Except.ok resources => resources
  | Except.error _ => []

/-- `_extract_cloud_id` (lines 119-147): empty list gives `""`, otherwise
the first resource with `resource.get("id", "")`. -/
def extractCloudId (api : Except Unit (List Item)) : String :=
  match getAccessibleResources api with
  | [] => ""
  | resource :: _ => resource.id

/-- The state `create` puts on the instance (lines 154-157). -/
structure SourceInstance where
  accessToken : String
  cloudId : String
  baseUrl : String
deriving DecidableEq, Repr

/-- `create` (lines 149-159): always constructs an instance; the cloud id
comes from `extractCloudId` and the base URL is the fixed prefix followed
by the (possibly empty) cloud id. -/
def createSource (api : Except Unit (List Item)) (accessToken : String) : SourceInstance :=
  let cloudId := extractCloudId api
  { accessToken := accessToken
    cloudId := cloudId
    baseUrl := "https://api.atlassian.com/ex/confluence/" ++ cloudId }

/-! ## Traversal (lines 224-555)

The network is a `Fetcher`: what `_get_with_auth` produces for a URL.
Each `while url:` loop becomes a fueled recursion on the optional current
URL; `url = f"{self.base_url}{next_link}" if next_link else None` becomes
`nextLink.map (fun l => baseUrl ++ l)`. -/

def Fetcher : Type := String → Except FetchError Body

/-- Line 244: `f"{self.base_url}/wiki/api/v2/spaces?limit={limit}"` with
`limit = 50`. -/
def spacesUrl (baseUrl : String) : String :=
  baseUrl ++ "/wiki/api/v2/spaces?limit=50"

/-- Line 270: the page listing URL of a space. -/
def pagesUrl (baseUrl spaceId : String) : String :=
  baseUrl ++ "/wiki/api/v2/spaces/" ++ spaceId ++ "/pages?limit=50"

/-- Line 280: the per-page detail URL with expanded body. -/
def pageDetailUrl (baseUrl pageId : String) : String :=
  baseUrl ++ "/wiki/api/v2/pages/" ++ pageId ++ "?body-format=storage"

/-- Line 380: the inline-comments listing URL of a page. -/
def commentsUrl (baseUrl pageId : String) : String :=
  baseUrl ++ "/wiki/api/v2/pages/" ++ pageId ++ "/inline-comments?limit=50"

/-- Line 347: the blog post listing URL of a space. -/
def blogsUrl (baseUrl spaceId : String) : String :=
  baseUrl ++ "/wiki/api/v2/spaces/" ++ spaceId ++ "/blogposts?limit=50"

/-- Lines 248-259: a space item mapped to `ConfluenceSpaceEntity`
(`breadcrumbs=[]`, top-level object). -/
def spaceEntityOfItem (s : Item) : SpaceEntity :=
  { entityId := s.id
    breadcrumbs := []
    spaceKey := s.key
    name := s.name
    spaceType := s.type
    description := s.description
    status := s.status
    homepageId := s.homepageId
    createdAt := s.createdAt
    updatedAt := s.updatedAt }

/-- Lines 351-362: a blog item mapped to `ConfluenceBlogPostEntity` with
`breadcrumbs=[space_breadcrumb]`. -/
def blogPostEntityOfItem (spaceBreadcrumb : Breadcrumb) (blog : Item) : BlogPostEntity :=
  { entityId := blog.id
    breadcrumbs := [spaceBreadcrumb]
    contentId := blog.id
    title := blog.title
    spaceId := blog.spaceId
    body := blog.bodyValue
    version := blog.versionNumber
    status := blog.status
    createdAt := blog.createdAt
    updatedAt := blog.updatedAt }

/-- Lines 384-394: a comment item mapped to `ConfluenceCommentEntity`,
carrying the parent breadcrumb chain unchanged. -/
def commentEntityOfItem (parentBreadcrumbs : List Breadcrumb) (comment : Item) : CommentEntity :=
  { entityId := comment.id
    breadcrumbs := parentBreadcrumbs
    pageId := comment.id
    parentContentId := comment.containerId
    text := comment.bodyValue
    createdBy := comment.createdBy
    createdAt := comment.createdAt
    updatedAt := comment.updatedAt
    status := comment.status }

/-- Lines 284-308: the `ConfluencePageEntity` built from a listing item
`page` and its detail response `pageDetails`. -/
def mkPageFileEntity (baseUrl : String) (spaceBreadcrumb : Breadcrumb)
    (page : Item) (pageDetails : Body) : PageEntity :=
  { entityId := page.id
    breadcrumbs := [spaceBreadcrumb]
    contentId := page.id
    title := pageDetails.title
    spaceId := pageDetails.spaceNestedId
    body := pageDetails.bodyValue.getD ""
    version := pageDetails.versionNumber
    status := pageDetails.status
    createdAt := pageDetails.createdAt
    updatedAt := pageDetails.updatedAt
    fileId := page.id
    name := pageDetails.title.getD "Untitled Page" ++ ".html"
    mimeType := "text/html"
    downloadUrl := baseUrl ++ "/wiki/api/v2/pages/" ++ page.id }

/-- Lines 311-322: the synthesized HTML document around the body content
(whitespace simplified; the collaborator receiving it is abstract). -/
def htmlContent (title bodyContent : String) : String :=
  "<!DOCTYPE html><html><head><title>" ++ title ++
    "</title><meta charset=UTF-8></head><body>" ++ bodyContent ++ "</body></html>"

/-- Line 331: the metadata mapping passed to the collaborator. -/
structure FileMetadata where
  source : String
  pageId : String
deriving DecidableEq, Repr

/-- The content-extraction collaborator
`process_file_entity_with_content(file_entity, content_stream, metadata)`:
an external component (spec section 4.5) returning either a processed
record or nothing. -/
def ProcessFn : Type :=
  PageEntity → AsyncIteratorWrapper String → FileMetadata → Option PageEntity

/-- Lines 284-332 for one page item whose detail response is `pageDetails`:
build the file entity, synthesize the HTML, wrap it as a single-chunk
stream (line 325) and hand everything to the collaborator. -/
def processedPage (process : ProcessFn) (baseUrl : String)
    (spaceBreadcrumb : Breadcrumb) (pageDetails : Body) (page : Item) : Option PageEntity :=
  let fileEntity := mkPageFileEntity baseUrl spaceBreadcrumb page pageDetails
  let html := htmlContent (pageDetails.title.getD "") (pageDetails.bodyValue.getD "")
  process fileEntity (wrapperOfList [html]) { source := "confluence", pageId := page.id }

/-- Lines 279-332 for one page item: the detail fetch (an exception there
propagates), then `processedPage`. -/
def processPageItem (fetch : Fetcher) (process : ProcessFn) (baseUrl : String)
    (spaceBreadcrumb : Breadcrumb) (page : Item) : Except FetchError (Option PageEntity) :=
  match fetch (pageDetailUrl baseUrl page.id) with
  | Except.error e => Except.error e
  | Except.ok pageDetails =>
      Except.ok (processedPage process baseUrl spaceBreadcrumb pageDetails page)

/-! ### The paginated generator loops -/

/-- The `while url:` loop of `_generate_space_entities` (lines 243-263). -/
def generateSpaceEntitiesLoop (fetch : Fetcher) (baseUrl : String) :
    Nat → Option String → GenResult SpaceEntity
  | _, none => ⟨[], Terminal.done⟩
  | 0, some _ => ⟨[], Terminal.outOfFuel⟩
  | fuel + 1, some url =>
      match fetch url with
      | Except.error e => ⟨[], Terminal.failed e⟩
      | Except.ok data =>
          let rest := generateSpaceEntitiesLoop fetch baseUrl fuel
            (data.nextLink.map (fun l => baseUrl ++ l))
          ⟨data.results.map spaceEntityOfItem ++ rest.emitted, rest.terminal⟩

/-- `_generate_space_entities` (lines 224-263). -/
def generateSpaceEntities (fetch : Fetcher) (baseUrl : String) (fuel : Nat) :
    GenResult SpaceEntity :=
  generateSpaceEntitiesLoop fetch baseUrl fuel (some (spacesUrl baseUrl))

/-- The `while url:` loop of `_generate_comment_entities` (lines 379-396). -/
def generateCommentEntitiesLoop (fetch : Fetcher) (baseUrl : String)
    (parentBreadcrumbs : List Breadcrumb) :
    Nat → Option String → GenResult CommentEntity
  | _, none => ⟨[], Terminal.done⟩
  | 0, some _ => ⟨[], Terminal.outOfFuel⟩
  | fuel + 1, some url =>
      match fetch url with
      | Except.error e => ⟨[], Terminal.failed e⟩
      | Except.ok data =>
          let rest := generateCommentEntitiesLoop fetch baseUrl parentBreadcrumbs fuel
            (data.nextLink.map (fun l => baseUrl ++ l))
          ⟨data.results.map (commentEntityOfItem parentBreadcrumbs) ++ rest.emitted,
            rest.terminal⟩

/-- The `while url:` loop of `_generate_blog_post_entities` (lines 346-365). -/
def generateBlogPostEntitiesLoop (fetch : Fetcher) (baseUrl : String)
    (spaceBreadcrumb : Breadcrumb) :
    Nat → Option String → GenResult BlogPostEntity
  | _, none => ⟨[], Terminal.done⟩
  | 0, some _ => ⟨[], Terminal.outOfFuel⟩
  | fuel + 1, some url =>
      match fetch url with
      | Except.error e => ⟨[], Terminal.failed e⟩
      | Except.ok data =>
          let rest := generateBlogPostEntitiesLoop fetch baseUrl spaceBreadcrumb fuel
            (data.nextLink.map (fun l => baseUrl ++ l))
          ⟨data.results.map (blogPostEntityOfItem spaceBreadcrumb) ++ rest.emitted,
            rest.terminal⟩

/-- The `for page in data.get("results", [])` body of
`_generate_page_entities` (lines 275-336): each item runs a detail fetch
(whose failure aborts), and is yielded only when the collaborator returned
a processed entity. -/
def generatePageEntitiesItems (fetch : Fetcher) (process : ProcessFn) (baseUrl : String)
    (spaceBreadcrumb : Breadcrumb) : List Item → GenResult PageEntity
  | [] => ⟨[], Terminal.done⟩
  | page :: rest =>
      match processPageItem fetch process baseUrl spaceBreadcrumb page with
      | Except.error e => ⟨[], Terminal.failed e⟩
      | Except.ok none => generatePageEntitiesItems fetch process baseUrl spaceBreadcrumb rest
      | Except.ok (some pe) =>
          let r := generatePageEntitiesItems fetch process baseUrl spaceBreadcrumb rest
          ⟨pe :: r.emitted, r.terminal⟩

/-- The `while url:` loop of `_generate_page_entities` (lines 272-340). -/
def generatePageEntitiesLoop (fetch : Fetcher) (process : ProcessFn) (baseUrl : String)
    (spaceBreadcrumb : Breadcrumb) :
    Nat → Option String → GenResult PageEntity
  | _, none => ⟨[], Terminal.done⟩
  | 0, some _ => ⟨[], Terminal.outOfFuel⟩
  | fuel + 1, some url =>
      match fetch url with
      | Except.error e => ⟨[], Terminal.failed e⟩
      | Except.ok data =>
          let r := generatePageEntitiesItems fetch process baseUrl spaceBreadcrumb data.results
          match r.terminal with
          | Terminal.done =>
              let rest := generatePageEntitiesLoop fetch process baseUrl spaceBreadcrumb fuel
                (data.nextLink.map (fun l => baseUrl ++ l))
              ⟨r.emitted ++ rest.emitted, rest.terminal⟩
          | t => ⟨r.emitted, t⟩

/-- `_generate_page_entities` (lines 265-340) for a space. -/
def generatePageEntities (fetch : Fetcher) (process : ProcessFn) (baseUrl spaceId : String)
    (spaceBreadcrumb : Breadcrumb) (fuel : Nat) : GenResult PageEntity :=
  generatePageEntitiesLoop fetch process baseUrl spaceBreadcrumb fuel
    (some (pagesUrl baseUrl spaceId))

/-! ### `generate_entities` (lines 465-555)

The orchestrator pulls lazily, so for each yielded page its comments run
before the page generator is advanced again, and for each space its whole
subtree runs before the next space (or the next space-listing fetch).
Composing eager sub-results reproduces the emitted sequences exactly: a
later failure of a sub-generator cannot emit or fetch anything before the
records that preceded it. -/

/-- Lines 490-504: the breadcrumb chain of a yielded page (built from the
processed entity) and its comment traversal, emitted right after the page. -/
def pageWithComments (fetch : Fetcher) (baseUrl : String) (fuel : Nat)
    (spaceBreadcrumb : Breadcrumb) (pe : PageEntity) : GenResult Entity :=
  let pageBreadcrumbs :=
    [spaceBreadcrumb, Breadcrumb.mk pe.entityId (pe.title.getD "") "page"]
  let c := generateCommentEntitiesLoop fetch baseUrl pageBreadcrumbs fuel
    (some (commentsUrl baseUrl pe.contentId))
  ⟨Entity.page pe :: c.emitted.map Entity.comment, c.terminal⟩

/-- Lines 479-504 over the pages a space yielded: each page is immediately
followed by its comments; a failure in a comment loop stops everything. -/
def foldPagesWithComments (fetch : Fetcher) (baseUrl : String) (fuel : Nat)
    (spaceBreadcrumb : Breadcrumb) : List PageEntity → GenResult Entity
  | [] => ⟨[], Terminal.done⟩
  | pe :: rest =>
      let r := pageWithComments fetch baseUrl fuel spaceBreadcrumb pe
      match r.terminal with
      | Terminal.done =>
          let more := foldPagesWithComments fetch baseUrl fuel spaceBreadcrumb rest
          ⟨r.emitted ++ more.emitted, more.terminal⟩
      | _ => r

/-- Lines 469-526 for one space: the space record itself, its pages (each
with its comments), then its blog posts. The terminal events follow the
pull order: a comment failure is observed before the page loop terminal,
which is observed before any blog fetch. -/
def spaceBlock (fetch : Fetcher) (process : ProcessFn) (baseUrl : String) (fuel : Nat)
    (s : SpaceEntity) : GenResult Entity :=
  let spaceBreadcrumb := Breadcrumb.mk s.entityId (s.name.getD "") "space"
  let pages := generatePageEntities fetch process baseUrl s.entityId spaceBreadcrumb fuel
  let pc := foldPagesWithComments fetch baseUrl fuel spaceBreadcrumb pages.emitted
  match pc.terminal with
  | Terminal.done =>
      match pages.terminal with
      | Terminal.done =>
          let blogs := generateBlogPostEntitiesLoop fetch baseUrl spaceBreadcrumb fuel
            (some (blogsUrl baseUrl s.entityId))
          ⟨Entity.space s :: pc.emitted ++ blogs.emitted.map Entity.blogPost, blogs.terminal⟩
      | t => ⟨Entity.space s :: pc.emitted, t⟩
  | t => ⟨Entity.space s :: pc.emitted, t⟩

/-- The spaces of one listing envelope, each processed fully before the
next; a non-done terminal stops the sequence. -/
def foldSpaces (fetch : Fetcher) (process : ProcessFn) (baseUrl : String) (fuel : Nat) :
    List SpaceEntity → GenResult Entity
  | [] => ⟨[], Terminal.done⟩
  | s :: rest =>
      let r := spaceBlock fetch process baseUrl fuel s
      match r.terminal with
      | Terminal.done =>
          let more := foldSpaces fetch process baseUrl fuel rest
          ⟨r.emitted ++ more.emitted, more.terminal⟩
      | _ => r

/-- The space-listing `while url:` loop as driven through
`generate_entities`: the next listing page is fetched only after every
space of the current one has been fully traversed. -/
def generateEntitiesLoop (fetch : Fetcher) (process : ProcessFn) (baseUrl : String)
    (fuel : Nat) : Nat → Option String → GenResult Entity
  | _, none => ⟨[], Terminal.done⟩
  | 0, some _ => ⟨[], Terminal.outOfFuel⟩
  | outerFuel + 1, some url =>
      match fetch url with
      | Except.error e => ⟨[], Terminal.failed e⟩
      | Except.ok data =>
          let r := foldSpaces fetch process baseUrl fuel (data.results.map spaceEntityOfItem)
          match r.terminal with
          | Terminal.done =>
              let rest := generateEntitiesLoop fetch process baseUrl fuel outerFuel
                (data.nextLink.map (fun l => baseUrl ++ l))
              ⟨r.emitted ++ rest.emitted, rest.terminal⟩
          | _ => r

/-- `generate_entities` (lines 465-555): the full traversal. -/
def generateEntities (fetch : Fetcher) (process : ProcessFn) (baseUrl : String)
    (fuel : Nat) : GenResult Entity :=
  generateEntitiesLoop fetch process baseUrl fuel fuel (some (spacesUrl baseUrl))

/-! ## Upstream datasets

A pagination chain is the list of envelope bodies obtained by starting at a
URL and following each `_links.next` (resolved against the base URL) until
a body omits it. `chainAt fetch baseUrl o chain` says the fetcher serves
exactly `chain` along the loop starting at the optional URL `o`. -/

def chainAt (fetch : Fetcher) (baseUrl : String) : Option String → List Body → Bool
  | none, [] => true
  | some url, d :: rest =>
      decide (fetch url = Except.ok d) &&
        chainAt fetch baseUrl (d.nextLink.map (fun l => baseUrl ++ l)) rest
  | _, _ => false

/-- A finite upstream dataset: the space-listing chain, and per space id
the page-listing chain, per page id the detail body, per page id the
comment chain, and per space id the blog chain. -/
structure Upstream where
  spaceEnvs : List Body
  pageChainOf : String → List Body
  detailOf : String → Body
  commentChainOf : String → List Body
  blogChainOf : String → List Body

/-- All space items across the listing chain, in arrival order. -/
def spacesOf (u : Upstream) : List Item :=
  u.spaceEnvs.flatMap (fun d => d.results)

/-- All page items of a space across its page-listing chain. -/
def pagesOf (u : Upstream) (spaceId : String) : List Item :=
  (u.pageChainOf spaceId).flatMap (fun d => d.results)

/-- The breadcrumb the orchestrator builds for a space (lines 472-476). -/
def spaceBreadcrumbOf (s : Item) : Breadcrumb :=
  Breadcrumb.mk s.id (s.name.getD "") "space"

/-- The breadcrumb the orchestrator builds for a processed page
(lines 490-497). -/
def pageBreadcrumbOf (pe : PageEntity) : Breadcrumb :=
  Breadcrumb.mk pe.entityId (pe.title.getD "") "page"

/-- What the collaborator returns for page item `p` of space `s`. -/
def processedOf (u : Upstream) (process : ProcessFn) (baseUrl : String)
    (s : Item) (p : Item) : Option PageEntity :=
  processedPage process baseUrl (spaceBreadcrumbOf s) (u.detailOf p.id) p

/-- The comment records of a processed page: its comment chain mapped
under the breadcrumb chain `[space, page]`. -/
def expectedComments (u : Upstream) (spaceBreadcrumb : Breadcrumb)
    (pe : PageEntity) : List CommentEntity :=
  (u.commentChainOf pe.contentId).flatMap
    (fun d => d.results.map
      (commentEntityOfItem [spaceBreadcrumb, pageBreadcrumbOf pe]))

/-- The page entities a space yields: every item of the page chain,
filtered through the collaborator. -/
def keptPages (u : Upstream) (process : ProcessFn) (baseUrl : String) (s : Item) :
    List PageEntity :=
  (pagesOf u s.id).filterMap (fun p => processedOf u process baseUrl s p)

/-- The blog records of a space. -/
def expectedBlogs (u : Upstream) (s : Item) : List BlogPostEntity :=
  (u.blogChainOf s.id).flatMap
    (fun d => d.results.map (blogPostEntityOfItem (spaceBreadcrumbOf s)))

/-- The full output block of one space: the space record, then each kept
page immediately followed by its comments, then the blog posts. -/
def expectedSpaceBlock (u : Upstream) (process : ProcessFn) (baseUrl : String)
    (s : Item) : List Entity :=
  Entity.space (spaceEntityOfItem s) ::
    ((keptPages u process baseUrl s).flatMap
      (fun pe => Entity.page pe ::
        (expectedComments u (spaceBreadcrumbOf s) pe).map Entity.comment)
      ++ (expectedBlogs u s).map Entity.blogPost)

/-- The full expected output of `generate_entities` over a dataset. -/
def expectedOutput (u : Upstream) (process : ProcessFn) (baseUrl : String) : List Entity :=
  (spacesOf u).flatMap (expectedSpaceBlock u process baseUrl)

/-- The fetcher serves the dataset: every chain the traversal walks is
present and every detail fetch succeeds. -/
structure Serves (fetch : Fetcher) (process : ProcessFn) (baseUrl : String)
    (u : Upstream) : Prop where
  spaces : chainAt fetch baseUrl (some (spacesUrl baseUrl)) u.spaceEnvs = true
  pages : ∀ s ∈ spacesOf u,
    chainAt fetch baseUrl (some (pagesUrl baseUrl s.id)) (u.pageChainOf s.id) = true
  blogs : ∀ s ∈ spacesOf u,
    chainAt fetch baseUrl (some (blogsUrl baseUrl s.id)) (u.blogChainOf s.id) = true
  details : ∀ s ∈ spacesOf u, ∀ p ∈ pagesOf u s.id,
    fetch (pageDetailUrl baseUrl p.id) = Except.ok (u.detailOf p.id)
  comments : ∀ s ∈ spacesOf u, ∀ p ∈ pagesOf u s.id,
    ∀ pe, processedOf u process baseUrl s p = some pe →
      chainAt fetch baseUrl (some (commentsUrl baseUrl pe.contentId))
        (u.commentChainOf pe.contentId) = true

/-- The model fuel dominates the length of every chain the traversal
walks, so no loop of the model runs dry. -/
structure FuelOK (u : Upstream) (process : ProcessFn) (baseUrl : String)
    (fuel : Nat) : Prop where
  spaces : u.spaceEnvs.length ≤ fuel
  pages : ∀ s ∈ spacesOf u, (u.pageChainOf s.id).length ≤ fuel
  blogs : ∀ s ∈ spacesOf u, (u.blogChainOf s.id).length ≤ fuel
  comments : ∀ s ∈ spacesOf u, ∀ p ∈ pagesOf u s.id,
    ∀ pe, processedOf u process baseUrl s p = some pe →
      (u.commentChainOf pe.contentId).length ≤ fuel

/-! ## Loop lemmas

Each fueled loop, run against a fetcher that serves a chain, with fuel at
least the chain length, emits exactly the concatenation of the mapped
page items and completes. -/

theorem generateCommentEntitiesLoop_chain (fetch : Fetcher) (baseUrl : String)
    (bcs : List Breadcrumb) (chain : List Body) :
    ∀ (o : Option String) (fuel : Nat), chainAt fetch baseUrl o chain = true →
      chain.length ≤ fuel →
      generateCommentEntitiesLoop fetch baseUrl bcs fuel o =
        ⟨chain.flatMap (fun d => d.results.map (commentEntityOfItem bcs)),
          Terminal.done⟩ := by
  induction chain with
  | nil =>
      intro o fuel h _
      cases o with
      | none => cases fuel <;> simp [generateCommentEntitiesLoop]
      | some url => simp [chainAt] at h
  | cons d rest ih =>
      intro o fuel h hf
      cases o with
      | none => simp [chainAt] at h
      | some url =>
          simp only [chainAt, Bool.and_eq_true, decide_eq_true_eq] at h
          obtain ⟨h1, h2⟩ := h
          cases fuel with
          | zero => simp at hf
          | succ f =>
              have hf2 : rest.length ≤ f := by
                simp only [List.length_cons] at hf
                omega
              simp [generateCommentEntitiesLoop, h1, ih _ f h2 hf2]

theorem generateBlogPostEntitiesLoop_chain (fetch : Fetcher) (baseUrl : String)
    (sbc : Breadcrumb) (chain : List Body) :
    ∀ (o : Option String) (fuel : Nat), chainAt fetch baseUrl o chain = true →
      chain.length ≤ fuel →
      generateBlogPostEntitiesLoop fetch baseUrl sbc fuel o =
        ⟨chain.flatMap (fun d => d.results.map (blogPostEntityOfItem sbc)),
          Terminal.done⟩ := by
  induction chain with
  | nil =>
      intro o fuel h _
      cases o with
      | none => cases fuel <;> simp [generateBlogPostEntitiesLoop]
      | some url => simp [chainAt] at h
  | cons d rest ih =>
      intro o fuel h hf
      cases o with
      | none => simp [chainAt] at h
      | some url =>
          simp only [chainAt, Bool.and_eq_true, decide_eq_true_eq] at h
          obtain ⟨h1, h2⟩ := h
          cases fuel with
          | zero => simp at hf
          | succ f =>
              have hf2 : rest.length ≤ f := by
                simp only [List.length_cons] at hf
                omega
              simp [generateBlogPostEntitiesLoop, h1, ih _ f h2 hf2]

theorem generateSpaceEntitiesLoop_chain (fetch : Fetcher) (baseUrl : String)
    (chain : List Body) :
    ∀ (o : Option String) (fuel : Nat), chainAt fetch baseUrl o chain = true →
      chain.length ≤ fuel →
      generateSpaceEntitiesLoop fetch baseUrl fuel o =
        ⟨chain.flatMap (fun d => d.results.map spaceEntityOfItem),
          Terminal.done⟩ := by
  induction chain with
  | nil =>
      intro o fuel h _
      cases o with
      | none => cases fuel <;> simp [generateSpaceEntitiesLoop]
      | some url => simp [chainAt] at h
  | cons d rest ih =>
      intro o fuel h hf
      cases o with
      | none => simp [chainAt] at h
      | some url =>
          simp only [chainAt, Bool.and_eq_true, decide_eq_true_eq] at h
          obtain ⟨h1, h2⟩ := h
          cases fuel with
      | zero => simp at hf
          | succ f =>
              have hf2 : rest.length ≤ f := by
                simp only [List.length_cons] at hf
                omega
              simp [generateSpaceEntitiesLoop, h1, ih _ f h2 hf2]

theorem generatePageEntitiesItems_ok (fetch : Fetcher) (process : ProcessFn)
    (baseUrl : String) (sbc : Breadcrumb) (detailOf : String → Body)
    (items : List Item)
    (h : ∀ p ∈ items, fetch (pageDetailUrl baseUrl p.id) = Except.ok (detailOf p.id)) :
    generatePageEntitiesItems fetch process baseUrl sbc items =
      ⟨items.filterMap (fun p => processedPage process baseUrl sbc (detailOf p.id) p),
        Terminal.done⟩ := by
  induction items with
  | nil => simp [generatePageEntitiesItems]
  | cons p rest ih =>
      have hp := h p (List.mem_cons_self p rest)
      have hr := ih (fun q hq => h q (List.mem_cons_of_mem p hq))
      cases hc : processedPage process baseUrl sbc (detailOf p.id) p with
      | none =>
          simp [generatePageEntitiesItems, processPageItem, hp, hc, hr]
      | some pe =>
          simp [generatePageEntitiesItems, processPageItem, hp, hc, hr]

theorem generatePageEntitiesLoop_chain (fetch : Fetcher) (process : ProcessFn)
    (baseUrl : String) (sbc : Breadcrumb) (detailOf : String → Body)
    (chain : List Body) :
    ∀ (o : Option String) (fuel : Nat), chainAt fetch baseUrl o chain = true →
      chain.length ≤ fuel →
      (∀ p ∈ chain.flatMap (fun d => d.results),
        fetch (pageDetailUrl baseUrl p.id) = Except.ok (detailOf p.id)) →
      generatePageEntitiesLoop fetch process baseUrl sbc fuel o =
        ⟨(chain.flatMap (fun d => d.results)).filterMap
          (fun p => processedPage process baseUrl sbc (detailOf p.id) p),
          Terminal.done⟩ := by
  induction chain with
  | nil =>
      intro o fuel h _ _
      cases o with
      | none => cases fuel <;> simp [generatePageEntitiesLoop]
      | some url => simp [chainAt] at h
  | cons d rest ih =>
      intro o fuel h hf hd
      cases o with
      | none => simp [chainAt] at h
      | some url =>
          simp only [chainAt, Bool.and_eq_true, decide_eq_true_eq] at h
          obtain ⟨h1, h2⟩ := h
          cases fuel with
          | zero => simp at hf
          | succ f =>
              have hf2 : rest.length ≤ f := by
                simp only [List.length_cons] at hf
                omega
              have hd1 : ∀ p ∈ d.results,
                  fetch (pageDetailUrl baseUrl p.id) = Except.ok (detailOf p.id) := by
                intro p hp
                exact hd p (by simp [List.mem_flatMap]; exact Or.inl hp)
              have hd2 : ∀ p ∈ rest.flatMap (fun d => d.results),
                  fetch (pageDetailUrl baseUrl p.id) = Except.ok (detailOf p.id) := by
                intro p hp
                simp only [List.mem_flatMap] at hp
                obtain ⟨env, henv, hp⟩ := hp
                exact hd p (by
                  simp only [List.mem_flatMap]
                  exact ⟨env, List.mem_cons_of_mem d henv, hp⟩)
              have hitems := generatePageEntitiesItems_ok fetch process baseUrl sbc
                detailOf d.results hd1
              simp [generatePageEntitiesLoop, h1, hitems, ih _ f h2 hf2 hd2,
                List.filterMap_append]

theorem foldPagesWithComments_ok (fetch : Fetcher) (baseUrl : String) (fuel : Nat)
    (sbc : Breadcrumb) (commentChainOf : String → List Body) (pes : List PageEntity)
    (h : ∀ pe ∈ pes,
      chainAt fetch baseUrl (some (commentsUrl baseUrl pe.contentId))
          (commentChainOf pe.contentId) = true ∧
        (commentChainOf pe.contentId).length ≤ fuel) :
    foldPagesWithComments fetch baseUrl fuel sbc pes =
      ⟨pes.flatMap (fun pe => Entity.page pe ::
        ((commentChainOf pe.contentId).flatMap
          (fun d => d.results.map
            (commentEntityOfItem [sbc, pageBreadcrumbOf pe]))).map Entity.comment),
        Terminal.done⟩ := by
  induction pes with
  | nil => simp [foldPagesWithComments]
  | cons pe rest ih =>
      obtain ⟨h1, h2⟩ := h pe (List.mem_cons_self pe rest)
      have hc := generateCommentEntitiesLoop_chain fetch baseUrl
        [sbc, pageBreadcrumbOf pe] (commentChainOf pe.contentId) _ fuel h1 h2
      have hr := ih (fun q hq => h q (List.mem_cons_of_mem pe hq))
      simp [foldPagesWithComments, pageWithComments, pageBreadcrumbOf, hr]
      simp [pageBreadcrumbOf] at hc
      simp [hc]

theorem spaceBlock_ok (fetch : Fetcher) (process : ProcessFn) (baseUrl : String)
    (fuel : Nat) (u : Upstream) (s : Item)
    (hpchain : chainAt fetch baseUrl (some (pagesUrl baseUrl s.id))
      (u.pageChainOf s.id) = true)
    (hpfuel : (u.pageChainOf s.id).length ≤ fuel)
    (hdetails : ∀ p ∈ pagesOf u s.id,
      fetch (pageDetailUrl baseUrl p.id) = Except.ok (u.detailOf p.id))
    (hcomments : ∀ p ∈ pagesOf u s.id, ∀ pe,
      processedOf u process baseUrl s p = some pe →
        chainAt fetch baseUrl (some (commentsUrl baseUrl pe.contentId))
            (u.commentChainOf pe.contentId) = true ∧
          (u.commentChainOf pe.contentId).length ≤ fuel)
    (hbchain : chainAt fetch baseUrl (some (blogsUrl baseUrl s.id))
      (u.blogChainOf s.id) = true)
    (hbfuel : (u.blogChainOf s.id).length ≤ fuel) :
    spaceBlock fetch process baseUrl fuel (spaceEntityOfItem s) =
      ⟨expectedSpaceBlock u process baseUrl s, Terminal.done⟩ := by
  have hpages : generatePageEntities fetch process baseUrl s.id
      (spaceBreadcrumbOf s) fuel =
      ⟨keptPages u process baseUrl s, Terminal.done⟩ := by
    have := generatePageEntitiesLoop_chain fetch process baseUrl
      (spaceBreadcrumbOf s) u.detailOf (u.pageChainOf s.id)
      (some (pagesUrl baseUrl s.id)) fuel hpchain hpfuel hdetails
    simpa [generatePageEntities, keptPages, pagesOf, processedOf] using this
  have hkept : ∀ pe ∈ keptPages u process baseUrl s,
      chainAt fetch baseUrl (some (commentsUrl baseUrl pe.contentId))
          (u.commentChainOf pe.contentId) = true ∧
        (u.commentChainOf pe.contentId).length ≤ fuel := by
    intro pe hpe
    simp only [keptPages, List.mem_filterMap] at hpe
    obtain ⟨p, hp, hsome⟩ := hpe
    exact hcomments p hp pe hsome
  have hfold := foldPagesWithComments_ok fetch baseUrl fuel (spaceBreadcrumbOf s)
    u.commentChainOf (keptPages u process baseUrl s) hkept
  have hblogs := generateBlogPostEntitiesLoop_chain fetch baseUrl
    (spaceBreadcrumbOf s) (u.blogChainOf s.id) (some (blogsUrl baseUrl s.id))
    fuel hbchain hbfuel
  have hbc : Breadcrumb.mk s.id (s.name.getD "") "space" = spaceBreadcrumbOf s := rfl
  simp only [spaceBlock, spaceEntityOfItem]
  simp only [hbc, hpages, hfold, hblogs]
  simp [expectedSpaceBlock, expectedComments, expectedBlogs, spaceEntityOfItem]

theorem foldSpaces_ok (fetch : Fetcher) (process : ProcessFn) (baseUrl : String)
    (fuel : Nat) (u : Upstream) (ss : List Item)
    (h : ∀ s ∈ ss, spaceBlock fetch process baseUrl fuel (spaceEntityOfItem s) =
      ⟨expectedSpaceBlock u process baseUrl s, Terminal.done⟩) :
    foldSpaces fetch process baseUrl fuel (ss.map spaceEntityOfItem) =
      ⟨ss.flatMap (expectedSpaceBlock u process baseUrl), Terminal.done⟩ := by
  induction ss with
  | nil => simp [foldSpaces]
  | cons s rest ih =>
      have h1 := h s (List.mem_cons_self s rest)
      have hr := ih (fun q hq => h q (List.mem_cons_of_mem s hq))
      simp [foldSpaces, h1, hr]

theorem generateEntitiesLoop_chain (fetch : Fetcher) (process : ProcessFn)
    (baseUrl : String) (fuel : Nat) (u : Upstream) (chain : List Body)
    (hall : ∀ s ∈ chain.flatMap (fun d => d.results),
      spaceBlock fetch process baseUrl fuel (spaceEntityOfItem s) =
        ⟨expectedSpaceBlock u process baseUrl s, Terminal.done⟩) :
    ∀ (o : Option String) (outerFuel : Nat), chainAt fetch baseUrl o chain = true →
      chain.length ≤ outerFuel →
      generateEntitiesLoop fetch process baseUrl fuel outerFuel o =
        ⟨(chain.flatMap (fun d => d.results)).flatMap
          (expectedSpaceBlock u process baseUrl), Terminal.done⟩ := by
  induction chain with
  | nil =>
      intro o outerFuel h _
      cases o with
      | none => cases outerFuel <;> simp [generateEntitiesLoop]
      | some url => simp [chainAt] at h
  | cons d rest ih =>
      intro o outerFuel h hf
      cases o with
      | none => simp [chainAt] at h
      | some url =>
          simp only [chainAt, Bool.and_eq_true, decide_eq_true_eq] at h
          obtain ⟨h1, h2⟩ := h
          cases outerFuel with
          | zero => simp at hf
          | succ f =>
              have hf2 : rest.length ≤ f := by
                simp only [List.length_cons] at hf
                omega
              have hall1 : ∀ s ∈ d.results,
                  spaceBlock fetch process baseUrl fuel (spaceEntityOfItem s) =
                    ⟨expectedSpaceBlock u process baseUrl s, Terminal.done⟩ := by
                intro s hsmem
                exact hall s (by simp [List.mem_flatMap]; exact Or.inl hsmem)
              have hall2 : ∀ s ∈ rest.flatMap (fun d => d.results),
                  spaceBlock fetch process baseUrl fuel (spaceEntityOfItem s) =
                    ⟨expectedSpaceBlock u process baseUrl s, Terminal.done⟩ := by
                intro s hsmem
                simp only [List.mem_flatMap] at hsmem
                obtain ⟨env, henv, hsmem⟩ := hsmem
                exact hall s (by
                  simp only [List.mem_flatMap]
                  exact ⟨env, List.mem_cons_of_mem d henv, hsmem⟩)
              have hfold := foldSpaces_ok fetch process baseUrl fuel u d.results hall1
              simp [generateEntitiesLoop, h1, hfold, ih hall2 _ f h2 hf2]

/-- Master lemma: against a fetcher serving a finite dataset, with fuel at
least every chain length, `generate_entities` completes and emits exactly
the expected depth-first output. -/
theorem generateEntities_spec (fetch : Fetcher) (process : ProcessFn)
    (baseUrl : String) (fuel : Nat) (u : Upstream)
    (hs : Serves fetch process baseUrl u) (hf : FuelOK u process baseUrl fuel) :
    generateEntities fetch process baseUrl fuel =
      ⟨expectedOutput u process baseUrl, Terminal.done⟩ := by
  have hall : ∀ s ∈ spacesOf u,
      spaceBlock fetch process baseUrl fuel (spaceEntityOfItem s) =
        ⟨expectedSpaceBlock u process baseUrl s, Terminal.done⟩ := by
    intro s hsmem
    refine spaceBlock_ok fetch process baseUrl fuel u s
      (hs.pages s hsmem) (hf.pages s hsmem) (hs.details s hsmem)
      (fun p hp pe hpe => ⟨hs.comments s hsmem p hp pe hpe,
        hf.comments s hsmem p hp pe hpe⟩)
      (hs.blogs s hsmem) (hf.blogs s hsmem)
  have := generateEntitiesLoop_chain fetch process baseUrl fuel u u.spaceEnvs
    (by simpa [spacesOf] using hall) (some (spacesUrl baseUrl)) fuel
    hs.spaces hf.spaces
  simpa [generateEntities, expectedOutput, spacesOf] using this

/-! ## Wrapper exhaustion lemma -/

theorem anext_fixpoint {α : Type} (w : AsyncIteratorWrapper α)
    (h : (anext w).1 = none) : anext (anext w).2 = (none, (anext w).2) := by
  by_cases hc : w.consumed
  · simp [anext, hc]
  · cases hs : w.sync w.calls with
    | some a => simp [anext, hc, hs] at h
    | none => simp [anext, hc, hs]

/-! ## Concrete responses for the 401 claims -/

/-- A 401 body with no scope hint anywhere. -/
def responseAuthExpired : Response :=
  { status := 401, text := "unauthorized body",
    json := { message := "Authentication required or token expired" } }

/-- A plain 200 response. -/
def responseOk : Response :=
  { status := 200, text := "ok body", json := { message := "" } }

/-- A 401 whose body message names the missing scope. -/
def responseScopeDenied : Response :=
  { status := 401, text := "scope body",
    json := { message := "Insufficient scope for this request" } }

/-! ## Claim theorems -/

/-- Claim C1 (code bug): on a 401 response without a scope indicator the
engine is supposed to call `refresh_on_unauthorized` exactly once and retry
once. In the code the refresh branch only catches `httpx.HTTPStatusError`
raised by `client.get` (line 181), but httpx returns the response and only
`raise_for_status` raises, so the branch is dead: a non-scope 401 produces
zero refresh calls, zero retries, and an immediate `HTTPStatusError`. The
third conjunct shows the refresh-and-retry logic is reachable only through
the exception-delivery path (`GetOutcome.raisesStatus`) that the transport
never takes. -/
theorem getWithAuth_nonScope401_never_refreshes :
    (getWithAuth true true responseAuthExpired responseOk).refreshCalls = 0 ∧
      (getWithAuth true true responseAuthExpired responseOk).result =
        Except.error (FetchError.httpStatusError 401) ∧
      (getWithAuth true true responseAuthExpired responseOk).requestsMade = 1 ∧
      getWithAuthCore true true (GetOutcome.raisesStatus responseAuthExpired)
          (GetOutcome.returns responseOk) =
        ⟨Except.ok responseOk.json, 1, 2⟩ := by
  refine ⟨by decide, by decide, by decide, by decide⟩

/-- Claim C2: a 401 carrying a scope indicator (scope-related message in
the body, or a scope-failure header) raises the `OAuth scope error`
`ValueError` immediately: no refresh call, no retry, one request. -/
theorem getWithAuth_scope401_immediate (hasTokenManager refreshOk : Bool)
    (first retried : Response)
    (h401 : first.status = 401) (hscope : scopeIndicator first = true) :
    (getWithAuth hasTokenManager refreshOk first retried).result =
        Except.error (FetchError.permissionScope
          ("OAuth scope error: " ++ responseErrorMessage first ++ ".")) ∧
      (getWithAuth hasTokenManager refreshOk first retried).refreshCalls = 0 ∧
      (getWithAuth hasTokenManager refreshOk first retried).requestsMade = 1 := by
  simp [getWithAuth, getWithAuthCore, respond, h401, hscope]

/-- Witness for C2 at a concrete scope-denied 401. -/
theorem getWithAuth_scope401_immediate_witness :
    (getWithAuth true true responseScopeDenied responseOk).result =
        Except.error (FetchError.permissionScope
          ("OAuth scope error: " ++ responseErrorMessage responseScopeDenied ++ ".")) ∧
      (getWithAuth true true responseScopeDenied responseOk).refreshCalls = 0 ∧
      (getWithAuth true true responseScopeDenied responseOk).requestsMade = 1 :=
  getWithAuth_scope401_immediate true true responseScopeDenied responseOk
    (by decide) (by decide)

/-- Claim C8: once the wrapped stream has reported end-of-stream, every
subsequent read leaves the wrapper unchanged and reports end-of-stream
again; nothing is ever re-emitted. -/
theorem wrapper_single_consumption {α : Type} (w : AsyncIteratorWrapper α)
    (h : (anext w).1 = none) (n : Nat) :
    iterState (anext w).2 n = (anext w).2 ∧
      (anext (iterState (anext w).2 n)).1 = none := by
  induction n with
  | zero =>
      constructor
      · rfl
      · simpa [iterState] using congrArg Prod.fst (anext_fixpoint w h)
  | succ m ih =>
      have hfix := anext_fixpoint w h
      constructor
      · show (anext (iterState (anext w).2 m)).2 = (anext w).2
        rw [ih.1, hfix]
      · show (anext (anext (iterState (anext w).2 m)).2).1 = none
        rw [ih.1, hfix]
        simpa using congrArg Prod.fst hfix

/-- Witness for C8: the stream over an exhausted list iterator keeps
reporting end-of-stream at the fifth further read. -/
theorem wrapper_single_consumption_witness :
    iterState (anext (wrapperOfList ([] : List Nat))).2 5 =
        (anext (wrapperOfList ([] : List Nat))).2 ∧
      (anext (iterState (anext (wrapperOfList ([] : List Nat))).2 5)).1 = none :=
  wrapper_single_consumption (wrapperOfList ([] : List Nat)) rfl 5

/-- Claim C10: `create` is total. Whatever the accessible-resources call
does (fails, returns no resources, or returns a first resource without an
id), an instance is constructed, the cloud id silently defaults to `""`,
and the base URL is the fixed prefix followed by the cloud id. -/
theorem createSource_absorbs_failures (api : Except Unit (List Item))
    (tok : String) (r : Item) (rs : List Item) :
    (createSource api tok).baseUrl =
        "https://api.atlassian.com/ex/confluence/" ++ (createSource api tok).cloudId ∧
      (createSource api tok).accessToken = tok ∧
      (createSource (Except.error ()) tok).cloudId = "" ∧
      (createSource (Except.ok []) tok).cloudId = "" ∧
      (createSource (Except.ok ({ } :: rs)) tok).cloudId = "" ∧
      (createSource (Except.ok (r :: rs)) tok).cloudId = r.id :=
  ⟨rfl, rfl, rfl, rfl, rfl, rfl⟩

/-! ## A concrete upstream for the traversal witnesses

One space `S1` named `Eng`, one page `P1` titled `Design` with one inline
comment `C1`, and one blog post `B1`. The base URL is `"B"`. -/

def spaceItemW : Item := { id := "S1", key := "ENG", name := some "Eng" }

def pageItemW : Item := { id := "P1" }

def pageDetailW : Body :=
  { title := some "Design", bodyValue := some "detailed body",
    spaceNestedId := some "S1", versionNumber := some 4 }

def commentItemW : Item := { id := "C1", bodyValue := some "looks good" }

def blogItemW : Item := { id := "B1", title := some "Post" }

def spaceEnvW : Body := { results := [spaceItemW] }

def pageEnvW : Body := { results := [pageItemW] }

def commentEnvW : Body := { results := [commentItemW] }

def blogEnvW : Body := { results := [blogItemW] }

def upstreamW : Upstream :=
  { spaceEnvs := [spaceEnvW]
    pageChainOf := fun _ => [pageEnvW]
    detailOf := fun _ => pageDetailW
    commentChainOf := fun _ => [commentEnvW]
    blogChainOf := fun _ => [blogEnvW] }

def fetchW : Fetcher := fun url =>
  if url = spacesUrl "B" then Except.ok spaceEnvW
  else if url = pagesUrl "B" "S1" then Except.ok pageEnvW
  else if url = pageDetailUrl "B" "P1" then Except.ok pageDetailW
  else if url = commentsUrl "B" "P1" then Except.ok commentEnvW
  else if url = blogsUrl "B" "S1" then Except.ok blogEnvW
  else Except.error FetchError.otherError

/-- A collaborator that accepts every document unchanged. -/
def processKeep : ProcessFn := fun e _ _ => some e

/-- The processed page entity of the concrete upstream. -/
def pageEntityW : PageEntity :=
  mkPageFileEntity "B" (spaceBreadcrumbOf spaceItemW) pageItemW pageDetailW

theorem servesW : Serves fetchW processKeep "B" upstreamW := by
  refine ⟨by decide, by decide, by decide, by decide, ?_⟩
  intro s hs p hp pe hpe
  have hs2 : s = spaceItemW := by
    have he : spacesOf upstreamW = [spaceItemW] := by decide
    rw [he] at hs
    simpa using hs
  subst hs2
  have hp2 : p = pageItemW := by
    have he : pagesOf upstreamW spaceItemW.id = [pageItemW] := by decide
    rw [he] at hp
    simpa using hp
  subst hp2
  have he : processedOf upstreamW processKeep "B" spaceItemW pageItemW =
      some pageEntityW := rfl
  rw [he] at hpe
  injection hpe with h2
  subst h2
  decide

theorem fuelOKW : FuelOK upstreamW processKeep "B" 3 := by
  refine ⟨by decide, by decide, by decide, ?_⟩
  intro s hs p hp pe hpe
  have hs2 : s = spaceItemW := by
    have he : spacesOf upstreamW = [spaceItemW] := by decide
    rw [he] at hs
    simpa using hs
  subst hs2
  have hp2 : p = pageItemW := by
    have he : pagesOf upstreamW spaceItemW.id = [pageItemW] := by decide
    rw [he] at hp
    simpa using hp
  subst hp2
  have he : processedOf upstreamW processKeep "B" spaceItemW pageItemW =
      some pageEntityW := rfl
  rw [he] at hpe
  injection hpe with h2
  subst h2
  decide

/-! ## Pagination and traversal claims -/

/-- Claim C4: paginated listing over a parent yields every item of every
page exactly once, in arrival order, following each next-link resolved
against the base URL, and stops exactly when an envelope omits the
next-link. Stated on the space listing (`_generate_space_entities`), the
loop the claim cites. -/
theorem pagination_stitching (fetch : Fetcher) (baseUrl : String)
    (chain : List Body) (fuel : Nat)
    (hchain : chainAt fetch baseUrl (some (spacesUrl baseUrl)) chain = true)
    (hfuel : chain.length ≤ fuel) :
    generateSpaceEntities fetch baseUrl fuel =
      ⟨chain.flatMap (fun d => d.results.map spaceEntityOfItem), Terminal.done⟩ :=
  generateSpaceEntitiesLoop_chain fetch baseUrl chain (some (spacesUrl baseUrl))
    fuel hchain hfuel

def itemA : Item := { id := "A1" }

def itemB : Item := { id := "A2" }

def itemC : Item := { id := "A3" }

/-- First page: two items and a relative next-link. -/
def envCursor1 : Body := { results := [itemA, itemB], nextLink := some "?cursor=2" }

/-- Second page: one item, no next-link. -/
def envCursor2 : Body := { results := [itemC] }

def fetchCursor : Fetcher := fun url =>
  if url = spacesUrl "B" then Except.ok envCursor1
  else if url = "B?cursor=2" then Except.ok envCursor2
  else Except.error FetchError.otherError

/-- Witness for C4: 2 items + next-link, then 1 item without one, yield
exactly 3 records and stop. -/
theorem pagination_stitching_witness :
    generateSpaceEntities fetchCursor "B" 2 =
      ⟨[spaceEntityOfItem itemA, spaceEntityOfItem itemB, spaceEntityOfItem itemC],
        Terminal.done⟩ :=
  (pagination_stitching fetchCursor "B" [envCursor1, envCursor2] 2 (by decide)
    (by decide)).trans (by decide)

theorem length_filterMap_isSome {α β : Type} (f : α → Option β) (l : List α)
    (h : ∀ a ∈ l, (f a).isSome = true) : (l.filterMap f).length = l.length := by
  induction l with
  | nil => simp
  | cons a rest ih =>
      have ha := h a (List.mem_cons_self a rest)
      cases hfa : f a with
      | none => rw [hfa] at ha; simp at ha
      | some b => simp [hfa, ih (fun x hx => h x (List.mem_cons_of_mem a hx))]

/-- Claim C5: over any finite upstream (every chain ends in an envelope
without a next-link, which is what `Serves` with finite chain lists says),
the traversal completes (with fuel at least the chain lengths the fueled
model finishes with `Terminal.done`, and the output is the fuel-free
`expectedOutput`), emitting every upstream item exactly once in arrival
order; when the collaborator keeps every document, each space also yields
exactly one record per page item. -/
theorem generate_terminates_yields_all (fetch : Fetcher) (process : ProcessFn)
    (baseUrl : String) (fuel : Nat) (u : Upstream)
    (hs : Serves fetch process baseUrl u) (hf : FuelOK u process baseUrl fuel)
    (hkeep : ∀ s ∈ spacesOf u, ∀ p ∈ pagesOf u s.id,
      (processedOf u process baseUrl s p).isSome = true) :
    (generateEntities fetch process baseUrl fuel).terminal = Terminal.done ∧
      (generateEntities fetch process baseUrl fuel).emitted =
        expectedOutput u process baseUrl ∧
      ∀ s ∈ spacesOf u,
        (keptPages u process baseUrl s).length = (pagesOf u s.id).length := by
  have h := generateEntities_spec fetch process baseUrl fuel u hs hf
  refine ⟨by rw [h], by rw [h], ?_⟩
  intro s hsmem
  exact length_filterMap_isSome _ _ (fun p hp => hkeep s hsmem p hp)

/-- Witness for C5 on the concrete upstream. -/
theorem generate_terminates_yields_all_witness :
    (generateEntities fetchW processKeep "B" 3).terminal = Terminal.done ∧
      (generateEntities fetchW processKeep "B" 3).emitted =
        expectedOutput upstreamW processKeep "B" := by
  have h := generate_terminates_yields_all fetchW processKeep "B" 3 upstreamW
    servesW fuelOKW (by decide)
  exact ⟨h.1, h.2.1⟩

/-- Claim C7: the output order is fixed and depth-first: for each
container, the container record, then each of its kept documents
immediately followed by all of its comments, then the blog
posts of the container, before anything of the next container. -/
theorem generate_depth_first_order (fetch : Fetcher) (process : ProcessFn)
    (baseUrl : String) (fuel : Nat) (u : Upstream)
    (hs : Serves fetch process baseUrl u) (hf : FuelOK u process baseUrl fuel) :
    (generateEntities fetch process baseUrl fuel).emitted =
      (spacesOf u).flatMap (fun s =>
        Entity.space (spaceEntityOfItem s) ::
          ((keptPages u process baseUrl s).flatMap (fun pe =>
            Entity.page pe ::
              (expectedComments u (spaceBreadcrumbOf s) pe).map Entity.comment)
            ++ (expectedBlogs u s).map Entity.blogPost)) := by
  have h := generateEntities_spec fetch process baseUrl fuel u hs hf
  rw [h]
  rfl

/-- Witness for C7: the concrete run emits space, page, comment, blog in
exactly that order. -/
theorem generate_depth_first_order_witness :
    (generateEntities fetchW processKeep "B" 3).emitted =
      [Entity.space (spaceEntityOfItem spaceItemW),
        Entity.page pageEntityW,
        Entity.comment (commentEntityOfItem
          [spaceBreadcrumbOf spaceItemW, pageBreadcrumbOf pageEntityW] commentItemW),
        Entity.blogPost (blogPostEntityOfItem (spaceBreadcrumbOf spaceItemW) blogItemW)] :=
  (generate_depth_first_order fetchW processKeep "B" 3 upstreamW servesW
    fuelOKW).trans (by decide)

/-- Every record of the expected output is a space record, a kept page, a
comment of a kept page, or a blog post, of one of the upstream spaces. -/
theorem mem_expectedOutput {u : Upstream} {process : ProcessFn} {baseUrl : String}
    {x : Entity} (hx : x ∈ expectedOutput u process baseUrl) :
    ∃ s ∈ spacesOf u,
      x = Entity.space (spaceEntityOfItem s) ∨
        (∃ pe ∈ keptPages u process baseUrl s,
          x = Entity.page pe ∨
            ∃ ce ∈ expectedComments u (spaceBreadcrumbOf s) pe,
              x = Entity.comment ce) ∨
        ∃ be ∈ expectedBlogs u s, x = Entity.blogPost be := by
  simp only [expectedOutput, List.mem_flatMap] at hx
  obtain ⟨s, hsmem, hx⟩ := hx
  refine ⟨s, hsmem, ?_⟩
  simp only [expectedSpaceBlock, List.mem_cons, List.mem_append, List.mem_flatMap,
    List.mem_map] at hx
  rcases hx with hsp | ⟨pe, hpe, hblock⟩ | ⟨be, hbe, hbeq⟩
  · exact Or.inl hsp
  · refine Or.inr (Or.inl ⟨pe, hpe, ?_⟩)
    rcases hblock with hpage | ⟨ce, hce, hceq⟩
    · exact Or.inl hpage
    · exact Or.inr ⟨ce, hce, hceq.symm⟩
  · exact Or.inr (Or.inr ⟨be, hbe, hbeq.symm⟩)

/-! ## Lineage (claim C3)

The immediate parent of a record in the output sequence is positional:
for a document or secondary document it is the nearest preceding container
record, for a comment it is the nearest preceding document record (under
the nearest preceding container). `lineageOKFrom` scans the output
carrying the breadcrumb of exactly those two records and checks every
lineage against them, so a record carrying the breadcrumb of any other
space or page makes the scan fail. -/

/-- The breadcrumb the orchestrator builds from an emitted space record
(lines 472-476). -/
def spaceBreadcrumbOfEntity (se : SpaceEntity) : Breadcrumb :=
  Breadcrumb.mk se.entityId (se.name.getD "") "space"

/-- Scan of an output sequence: the first state is the breadcrumb of the
nearest preceding container record, the second that of the nearest
preceding document record (reset at each container). Containers must
carry `[]`, documents and secondary documents exactly the current
container breadcrumb, comments exactly the current container and document
breadcrumbs. -/
def lineageOKFrom : Option Breadcrumb → Option Breadcrumb → List Entity → Bool
  | _, _, [] => true
  | _, _, Entity.space se :: rest =>
      decide (se.breadcrumbs = []) &&
        lineageOKFrom (some (spaceBreadcrumbOfEntity se)) none rest
  | some sbc, _, Entity.page pe :: rest =>
      decide (pe.breadcrumbs = [sbc]) &&
        lineageOKFrom (some sbc) (some (pageBreadcrumbOf pe)) rest
  | some sbc, pbc, Entity.blogPost be :: rest =>
      decide (be.breadcrumbs = [sbc]) && lineageOKFrom (some sbc) pbc rest
  | some sbc, some pbc, Entity.comment ce :: rest =>
      decide (ce.breadcrumbs = [sbc, pbc]) &&
        lineageOKFrom (some sbc) (some pbc) rest
  | _, _, _ :: _ => false

theorem lineage_scan_comments (sbc pbc : Breadcrumb) (cs : List CommentEntity)
    (rest : List Entity) (h : ∀ ce ∈ cs, ce.breadcrumbs = [sbc, pbc]) :
    lineageOKFrom (some sbc) (some pbc) (cs.map Entity.comment ++ rest) =
      lineageOKFrom (some sbc) (some pbc) rest := by
  induction cs with
  | nil => simp
  | cons ce cs ih =>
      have h1 := h ce (List.mem_cons_self ce cs)
      simp [lineageOKFrom, h1, ih (fun x hx => h x (List.mem_cons_of_mem ce hx))]

theorem lineage_scan_blogs (sbc : Breadcrumb) (pbc : Option Breadcrumb)
    (bs : List BlogPostEntity) (rest : List Entity)
    (h : ∀ be ∈ bs, be.breadcrumbs = [sbc]) :
    lineageOKFrom (some sbc) pbc (bs.map Entity.blogPost ++ rest) =
      lineageOKFrom (some sbc) pbc rest := by
  induction bs with
  | nil => simp
  | cons be bs ih =>
      have h1 := h be (List.mem_cons_self be bs)
      simp [lineageOKFrom, h1, ih (fun x hx => h x (List.mem_cons_of_mem be hx))]

theorem lineage_scan_pages (sbc : Breadcrumb) (cmtsOf : PageEntity → List CommentEntity)
    (pes : List PageEntity) :
    ∀ (pbc : Option Breadcrumb) (rest : List Entity),
      (∀ pe ∈ pes, pe.breadcrumbs = [sbc] ∧
        ∀ ce ∈ cmtsOf pe, ce.breadcrumbs = [sbc, pageBreadcrumbOf pe]) →
      ∃ pbc2 : Option Breadcrumb,
        lineageOKFrom (some sbc) pbc
            (pes.flatMap (fun pe => Entity.page pe :: (cmtsOf pe).map Entity.comment)
              ++ rest) =
          lineageOKFrom (some sbc) pbc2 rest := by
  induction pes with
  | nil =>
      intro pbc rest _
      exact ⟨pbc, by simp⟩
  | cons pe pes ih =>
      intro pbc rest h
      obtain ⟨hbc, hcm⟩ := h pe (List.mem_cons_self pe pes)
      obtain ⟨pbc2, hrec⟩ := ih (some (pageBreadcrumbOf pe)) rest
        (fun x hx => h x (List.mem_cons_of_mem pe hx))
      refine ⟨pbc2, ?_⟩
      have hcs := lineage_scan_comments sbc (pageBreadcrumbOf pe) (cmtsOf pe)
        ((pes.flatMap fun q => Entity.page q :: (cmtsOf q).map Entity.comment) ++ rest)
        hcm
      simp only [List.flatMap_cons, List.cons_append, List.append_assoc]
      simp only [lineageOKFrom, hbc, hcs, hrec]
      simp

theorem lineage_scan_blocks (u : Upstream) (process : ProcessFn) (baseUrl : String) :
    ∀ (ss : List Item),
      (∀ s ∈ ss, ∀ pe ∈ keptPages u process baseUrl s,
        pe.breadcrumbs = [spaceBreadcrumbOf s]) →
      ∀ (a b : Option Breadcrumb),
        lineageOKFrom a b (ss.flatMap (expectedSpaceBlock u process baseUrl)) = true := by
  intro ss
  induction ss with
  | nil =>
      intro _ a b
      simp [lineageOKFrom]
  | cons s ss ih =>
      intro h a b
      have hpages := h s (List.mem_cons_self s ss)
      have hcm : ∀ pe ∈ keptPages u process baseUrl s,
          ∀ ce ∈ expectedComments u (spaceBreadcrumbOf s) pe,
            ce.breadcrumbs = [spaceBreadcrumbOf s, pageBreadcrumbOf pe] := by
        intro pe _ ce hce
        simp only [expectedComments, List.mem_flatMap, List.mem_map] at hce
        obtain ⟨d, _, c, _, hceq⟩ := hce
        rw [← hceq]
        rfl
      have hbl : ∀ be ∈ expectedBlogs u s, be.breadcrumbs = [spaceBreadcrumbOf s] := by
        intro be hbe
        simp only [expectedBlogs, List.mem_flatMap, List.mem_map] at hbe
        obtain ⟨d, _, p, _, hpeq⟩ := hbe
        rw [← hpeq]
        rfl
      obtain ⟨pbc2, hp⟩ := lineage_scan_pages (spaceBreadcrumbOf s)
        (fun pe => expectedComments u (spaceBreadcrumbOf s) pe)
        (keptPages u process baseUrl s) none
        ((expectedBlogs u s).map Entity.blogPost
          ++ ss.flatMap (expectedSpaceBlock u process baseUrl))
        (fun pe hpe => ⟨hpages pe hpe, hcm pe hpe⟩)
      have hb := lineage_scan_blogs (spaceBreadcrumbOf s) pbc2 (expectedBlogs u s)
        (ss.flatMap (expectedSpaceBlock u process baseUrl)) hbl
      have hs0 : spaceBreadcrumbOfEntity (spaceEntityOfItem s) = spaceBreadcrumbOf s := rfl
      have hs1 : (spaceEntityOfItem s).breadcrumbs = [] := rfl
      simp only [List.flatMap_cons, expectedSpaceBlock, List.cons_append,
        List.append_assoc]
      simp only [lineageOKFrom, hs0, hs1, hp, hb]
      simpa using ih (fun q hq => h q (List.mem_cons_of_mem s hq))
        (some (spaceBreadcrumbOf s)) pbc2

/-- Claim C3: in the emitted sequence every record that is not a root
container carries a lineage ending with the breadcrumb of its own
immediate parent, positionally: containers carry `[]`, each document and
secondary document carries exactly the breadcrumb of the container record
it was emitted under (the nearest preceding one), and each comment carries
that container breadcrumb followed by the breadcrumb of the document
record it immediately follows — the scan `lineageOKFrom` checks all of
this against the nearest preceding container/document records. `hpres` is
the collaborator contract that the processed record keeps the breadcrumbs
the engine set. The concrete S1/Eng, P1/Design lineage is checked by the
witness. -/
theorem lineage_ends_with_parent (fetch : Fetcher) (process : ProcessFn)
    (baseUrl : String) (fuel : Nat) (u : Upstream)
    (hs : Serves fetch process baseUrl u) (hf : FuelOK u process baseUrl fuel)
    (hpres : ∀ e stream md pe, process e stream md = some pe →
      pe.breadcrumbs = e.breadcrumbs) :
    lineageOKFrom none none (generateEntities fetch process baseUrl fuel).emitted = true := by
  have hgen := generateEntities_spec fetch process baseUrl fuel u hs hf
  rw [hgen]
  show lineageOKFrom none none
    ((spacesOf u).flatMap (expectedSpaceBlock u process baseUrl)) = true
  refine lineage_scan_blocks u process baseUrl (spacesOf u) ?_ none none
  intro s _ pe hpe
  simp only [keptPages, List.mem_filterMap] at hpe
  obtain ⟨p, _, hsome⟩ := hpe
  simp only [processedOf, processedPage] at hsome
  rw [hpres _ _ _ _ hsome]
  rfl

/-- The scan is discriminating: a comment carrying the breadcrumb of a
sibling page `P9` instead of the page record it follows (`P1`) is
rejected, as is a page carrying the breadcrumb of a different space. -/
theorem lineageOKFrom_rejects_wrong_parent :
    lineageOKFrom none none
        [Entity.space (spaceEntityOfItem spaceItemW),
          Entity.page pageEntityW,
          Entity.comment (commentEntityOfItem
            [spaceBreadcrumbOf spaceItemW, Breadcrumb.mk "P9" "Other" "page"]
            commentItemW)] = false ∧
      lineageOKFrom none none
        [Entity.space (spaceEntityOfItem spaceItemW),
          Entity.page { pageEntityW with
            breadcrumbs := [Breadcrumb.mk "S9" "Other" "space"] }] = false := by
  refine ⟨by decide, by decide⟩

/-- Witness for C3: the scan holds on the concrete run, whose emitted
comment record carries exactly the lineage
`[{S1, Eng, space}, {P1, Design, page}]` of the claim scenario, and whose
container record carries empty lineage. -/
theorem lineage_ends_with_parent_witness :
    lineageOKFrom none none (generateEntities fetchW processKeep "B" 3).emitted = true ∧
      Entity.comment (commentEntityOfItem
          [Breadcrumb.mk "S1" "Eng" "space", Breadcrumb.mk "P1" "Design" "page"]
          commentItemW) ∈ (generateEntities fetchW processKeep "B" 3).emitted ∧
      (spaceEntityOfItem spaceItemW).breadcrumbs = [] := by
  refine ⟨lineage_ends_with_parent fetchW processKeep "B" 3 upstreamW servesW fuelOKW
    (fun e stream md pe hpe => by
      simp only [processKeep] at hpe
      injection hpe with h2
      rw [h2]), by decide, by decide⟩

/-- Claim C6: when the collaborator returns nothing for a document, that
document is silently dropped: the run still completes without error, a
page record reaches the output only through a successful processing
result, and (when the collaborator keeps the listing id, `hid`, and drops
every item with id `pid`, `hdrop`) no page record with id `pid` appears. -/
theorem materialization_filter (fetch : Fetcher) (process : ProcessFn)
    (baseUrl : String) (fuel : Nat) (u : Upstream) (pid : String)
    (hs : Serves fetch process baseUrl u) (hf : FuelOK u process baseUrl fuel)
    (hid : ∀ s ∈ spacesOf u, ∀ p ∈ pagesOf u s.id, ∀ pe,
      processedOf u process baseUrl s p = some pe → pe.entityId = p.id)
    (hdrop : ∀ s ∈ spacesOf u, ∀ p ∈ pagesOf u s.id, p.id = pid →
      processedOf u process baseUrl s p = none) :
    (generateEntities fetch process baseUrl fuel).terminal = Terminal.done ∧
      (∀ pe, Entity.page pe ∈ (generateEntities fetch process baseUrl fuel).emitted →
        ∃ s ∈ spacesOf u, ∃ p ∈ pagesOf u s.id,
          processedOf u process baseUrl s p = some pe) ∧
      (∀ pe, Entity.page pe ∈ (generateEntities fetch process baseUrl fuel).emitted →
        pe.entityId ≠ pid) := by
  have hgen := generateEntities_spec fetch process baseUrl fuel u hs hf
  have honly : ∀ pe, Entity.page pe ∈ expectedOutput u process baseUrl →
      ∃ s ∈ spacesOf u, ∃ p ∈ pagesOf u s.id,
        processedOf u process baseUrl s p = some pe := by
    intro pe0 hmem
    obtain ⟨s, hsmem, hcase⟩ := mem_expectedOutput hmem
    rcases hcase with hsp | ⟨pe, hpemem, hpg | ⟨ce, _, hcm⟩⟩ | ⟨be, _, hbl⟩
    · cases hsp
    · cases hpg
      simp only [keptPages, List.mem_filterMap] at hpemem
      obtain ⟨p, hp, hsome⟩ := hpemem
      exact ⟨s, hsmem, p, hp, hsome⟩
    · cases hcm
    · cases hbl
  refine ⟨by rw [hgen], by rw [hgen]; exact honly, ?_⟩
  intro pe hmem heq
  rw [hgen] at hmem
  obtain ⟨s, hsmem, p, hp, hsome⟩ := honly pe hmem
  have hpid : p.id = pid := ((hid s hsmem p hp pe hsome).symm.trans heq)
  rw [hdrop s hsmem p hp hpid] at hsome
  cases hsome

/-- A collaborator that drops the document `P1` and keeps the rest. -/
def processDropP1 : ProcessFn := fun e _ _ =>
  if e.entityId = "P1" then none else some e

theorem servesWdrop : Serves fetchW processDropP1 "B" upstreamW := by
  refine ⟨by decide, by decide, by decide, by decide, ?_⟩
  intro s hs p hp pe hpe
  have hs2 : s = spaceItemW := by
    have he : spacesOf upstreamW = [spaceItemW] := by decide
    rw [he] at hs
    simpa using hs
  subst hs2
  have hp2 : p = pageItemW := by
    have he : pagesOf upstreamW spaceItemW.id = [pageItemW] := by decide
    rw [he] at hp
    simpa using hp
  subst hp2
  have he : processedOf upstreamW processDropP1 "B" spaceItemW pageItemW = none := by
    decide
  rw [he] at hpe
  cases hpe

theorem fuelOKWdrop : FuelOK upstreamW processDropP1 "B" 3 := by
  refine ⟨by decide, by decide, by decide, ?_⟩
  intro s hs p hp pe hpe
  have hs2 : s = spaceItemW := by
    have he : spacesOf upstreamW = [spaceItemW] := by decide
    rw [he] at hs
    simpa using hs
  subst hs2
  have hp2 : p = pageItemW := by
    have he : pagesOf upstreamW spaceItemW.id = [pageItemW] := by decide
    rw [he] at hp
    simpa using hp
  subst hp2
  have he : processedOf upstreamW processDropP1 "B" spaceItemW pageItemW = none := by
    decide
  rw [he] at hpe
  cases hpe

/-- Witness for C6: dropping `P1` leaves a clean run whose output does
not contain the page record of `P1`. -/
theorem materialization_filter_witness :
    (generateEntities fetchW processDropP1 "B" 3).terminal = Terminal.done ∧
      Entity.page pageEntityW ∉ (generateEntities fetchW processDropP1 "B" 3).emitted := by
  have h := materialization_filter fetchW processDropP1 "B" 3 upstreamW "P1"
    servesWdrop fuelOKWdrop
    (by
      intro s hs p hp pe hpe
      have hs2 : s = spaceItemW := by
        have he : spacesOf upstreamW = [spaceItemW] := by decide
        rw [he] at hs
        simpa using hs
      subst hs2
      have hp2 : p = pageItemW := by
        have he : pagesOf upstreamW spaceItemW.id = [pageItemW] := by decide
        rw [he] at hp
        simpa using hp
      subst hp2
      have he : processedOf upstreamW processDropP1 "B" spaceItemW pageItemW = none := by
        decide
      rw [he] at hpe
      cases hpe)
    (by
      intro s hs p hp hpid
      have hs2 : s = spaceItemW := by
        have he : spacesOf upstreamW = [spaceItemW] := by decide
        rw [he] at hs
        simpa using hs
      subst hs2
      have hp2 : p = pageItemW := by
        have he : pagesOf upstreamW spaceItemW.id = [pageItemW] := by decide
        rw [he] at hp
        simpa using hp
      subst hp2
      decide)
  exact ⟨h.1, fun hmem => h.2.2 pageEntityW hmem rfl⟩

/-! ## Failure propagation (claim C9) -/

theorem foldSpaces_fail (fetch : Fetcher) (process : ProcessFn) (baseUrl : String)
    (fuel : Nat) (l1 : List Item) (s0 : Item) (l2 : List Item) (e : FetchError)
    (hok : ∀ s ∈ l1,
      (spaceBlock fetch process baseUrl fuel (spaceEntityOfItem s)).terminal =
        Terminal.done)
    (hfail : (spaceBlock fetch process baseUrl fuel (spaceEntityOfItem s0)).terminal =
      Terminal.failed e) :
    foldSpaces fetch process baseUrl fuel ((l1 ++ s0 :: l2).map spaceEntityOfItem) =
      ⟨l1.flatMap
          (fun s => (spaceBlock fetch process baseUrl fuel (spaceEntityOfItem s)).emitted)
        ++ (spaceBlock fetch process baseUrl fuel (spaceEntityOfItem s0)).emitted,
        Terminal.failed e⟩ := by
  induction l1 with
  | nil =>
      simp only [List.nil_append, List.map_cons, foldSpaces, hfail,
        List.flatMap_nil]
      conv_lhs => rw [show spaceBlock fetch process baseUrl fuel (spaceEntityOfItem s0) =
        ⟨(spaceBlock fetch process baseUrl fuel (spaceEntityOfItem s0)).emitted,
          Terminal.failed e⟩ from by rw [← hfail]]
  | cons s rest ih =>
      have h1 := hok s (List.mem_cons_self s rest)
      have hr := ih (fun q hq => hok q (List.mem_cons_of_mem s hq))
      have heta : spaceBlock fetch process baseUrl fuel (spaceEntityOfItem s) =
          ⟨(spaceBlock fetch process baseUrl fuel (spaceEntityOfItem s)).emitted,
            Terminal.done⟩ := by rw [← h1]
      simp only [List.cons_append, List.map_cons, foldSpaces, h1, List.append_eq, hr,
        List.flatMap_cons, List.append_assoc]

/-- Claim C9: a fatal fetch error in any leaf traversal step aborts the
whole remaining output sequence. First part: a failing per-item detail
fetch ends the page traversal at that item (nothing of the later items is
emitted). Second part: once any space subtree ends in `Terminal.failed e`,
`generate_entities` ends with exactly the records emitted up to that
point and the same error; no record of any later space appears. -/
theorem fatal_error_aborts_traversal :
    (∀ (fetch : Fetcher) (process : ProcessFn) (baseUrl : String) (sbc : Breadcrumb)
        (detailOf : String → Body) (q1 : List Item) (p0 : Item) (q2 : List Item)
        (e : FetchError),
      (∀ p ∈ q1, fetch (pageDetailUrl baseUrl p.id) = Except.ok (detailOf p.id)) →
      fetch (pageDetailUrl baseUrl p0.id) = Except.error e →
      generatePageEntitiesItems fetch process baseUrl sbc (q1 ++ p0 :: q2) =
        ⟨q1.filterMap (fun p => processedPage process baseUrl sbc (detailOf p.id) p),
          Terminal.failed e⟩) ∧
      (∀ (fetch : Fetcher) (process : ProcessFn) (baseUrl : String) (fuel : Nat)
          (env : Body) (l1 : List Item) (s0 : Item) (l2 : List Item) (e : FetchError),
        fetch (spacesUrl baseUrl) = Except.ok env →
        env.results = l1 ++ s0 :: l2 →
        (∀ s ∈ l1,
          (spaceBlock fetch process baseUrl fuel (spaceEntityOfItem s)).terminal =
            Terminal.done) →
        (spaceBlock fetch process baseUrl fuel (spaceEntityOfItem s0)).terminal =
          Terminal.failed e →
        0 < fuel →
        generateEntities fetch process baseUrl fuel =
          ⟨l1.flatMap
              (fun s =>
                (spaceBlock fetch process baseUrl fuel (spaceEntityOfItem s)).emitted)
            ++ (spaceBlock fetch process baseUrl fuel (spaceEntityOfItem s0)).emitted,
            Terminal.failed e⟩) := by
  constructor
  · intro fetch process baseUrl sbc detailOf q1 p0 q2 e hq1 hp0
    induction q1 with
    | nil => simp [generatePageEntitiesItems, processPageItem, hp0]
    | cons p rest ih =>
        have hp := hq1 p (List.mem_cons_self p rest)
        have hr := ih (fun x hx => hq1 x (List.mem_cons_of_mem p hx))
        cases hc : processedPage process baseUrl sbc (detailOf p.id) p with
        | none =>
            simp [generatePageEntitiesItems, processPageItem, hp, hc, hr]
        | some pe =>
            simp [generatePageEntitiesItems, processPageItem, hp, hc, hr]
  · intro fetch process baseUrl fuel env l1 s0 l2 e henv hres hok hfail hfuel
    have hfold := foldSpaces_fail fetch process baseUrl fuel l1 s0 l2 e hok hfail
    cases fuel with
    | zero => cases hfuel
    | succ f =>
        simp only [generateEntities, generateEntitiesLoop, henv, hres, hfold]

/-! ### A concrete failing upstream: space `S1` has pages `P1` and `P2`,
and the detail fetch of `P2` fails with a 500; a second space `S2` comes
after `S1` in the listing. -/

def spaceItem2 : Item := { id := "S2", key := "OPS", name := some "Ops" }

def spaceEnvF : Body := { results := [spaceItemW, spaceItem2] }

def pageItemF : Item := { id := "P2" }

def pageEnvF : Body := { results := [pageItemW, pageItemF] }

def fetchF : Fetcher := fun url =>
  if url = spacesUrl "B" then Except.ok spaceEnvF
  else if url = pagesUrl "B" "S1" then Except.ok pageEnvF
  else if url = pageDetailUrl "B" "P1" then Except.ok pageDetailW
  else if url = pageDetailUrl "B" "P2" then
    Except.error (FetchError.httpStatusError 500)
  else if url = commentsUrl "B" "P1" then Except.ok commentEnvW
  else if url = blogsUrl "B" "S1" then Except.ok blogEnvW
  else Except.error FetchError.otherError

/-- Witness for C9: the failing detail fetch of `P2` ends the run right
after `S1`, `P1` and its comment; no blog of `S1` and nothing of `S2` is
emitted, and the 500 error is the terminal event. -/
theorem fatal_error_aborts_traversal_witness :
    generateEntities fetchF processKeep "B" 3 =
      ⟨[Entity.space (spaceEntityOfItem spaceItemW),
          Entity.page pageEntityW,
          Entity.comment (commentEntityOfItem
            [spaceBreadcrumbOf spaceItemW, pageBreadcrumbOf pageEntityW] commentItemW)],
        Terminal.failed (FetchError.httpStatusError 500)⟩ := by
  have h := fatal_error_aborts_traversal.2 fetchF processKeep "B" 3 spaceEnvF []
    spaceItemW [spaceItem2] (FetchError.httpStatusError 500)
    (by decide) (by decide) (by decide) (by decide) (by decide)
  exact h.trans (by decide)

end Confluence
